import Mathlib

/-
Verification of the persistor coordination layer
(`src/packages/toolkit/src/persistor/index.ts`).

Shallow embedding conventions:
* JS values are modelled by the inductive `JSVal`; a plain object is a field
  list in insertion order, `undefined` is `Option.none` at use sites.
* JS reference identity (`!==`) is abstracted as value equality on the model:
  Redux Toolkit reducers return the same object exactly when they change
  nothing, and `combineReducers` propagates that, so in this value-level model
  "same reference" is rendered as "equal value".
* Asynchronous storage operations never run inside the synchronous dispatch
  path; the middleware only *initiates* them.  Initiation is recorded in an
  effect trace (`MWEff`), and the later, asynchronous settlement of the
  per-key attempts is modelled by separate total functions that take the
  settled storage outcomes (`Except`) as input.
* Process/dev-mode logging (`console.error`) is a pure diagnostic and is not
  recorded; non-action dispatches (thunks) are outside the model.
-/

/-- A JavaScript value: `null`, primitives, or a plain object given by its
field list in insertion order. (Arrays and functions never occur in the
persistor's data paths modelled here.) -/
inductive JSVal where
  | null : JSVal
  | bool (b : Bool) : JSVal
  | num (n : Int) : JSVal
  | str (s : String) : JSVal
  | obj (fields : List (String × JSVal)) : JSVal
  deriving Repr

mutual

/-- Structural (deep) equality test on `JSVal`. -/
def JSVal.beq : JSVal → JSVal → Bool
  | .null, .null => true
  | .bool a, .bool b => a == b
  | .num a, .num b => a == b
  | .str a, .str b => a == b
  | .obj fs, .obj gs => JSVal.beqFields fs gs
  | _, _ => false

/-- Structural equality on field lists. -/
def JSVal.beqFields : List (String × JSVal) → List (String × JSVal) → Bool
  | [], [] => true
  | (k, v) :: fs, (l, w) :: gs => k == l && JSVal.beq v w && JSVal.beqFields fs gs
  | _ :: _, [] => false
  | [], _ :: _ => false

end

mutual

theorem JSVal.beq_iff : ∀ a b : JSVal, JSVal.beq a b = true ↔ a = b
  | .null, .null => by simp [JSVal.beq]
  | .bool a, .bool b => by simp [JSVal.beq]
  | .num a, .num b => by simp [JSVal.beq]
  | .str a, .str b => by simp [JSVal.beq]
  | .obj fs, .obj gs => by
      simp only [JSVal.beq, JSVal.beqFields_iff fs gs]
      exact ⟨fun h => by rw [h], fun h => by injection h⟩
  | .null, .bool _ | .null, .num _ | .null, .str _ | .null, .obj _
  | .bool _, .null | .bool _, .num _ | .bool _, .str _ | .bool _, .obj _
  | .num _, .null | .num _, .bool _ | .num _, .str _ | .num _, .obj _
  | .str _, .null | .str _, .bool _ | .str _, .num _ | .str _, .obj _
  | .obj _, .null | .obj _, .bool _ | .obj _, .num _ | .obj _, .str _ => by
      simp [JSVal.beq]

theorem JSVal.beqFields_iff :
    ∀ fs gs : List (String × JSVal), JSVal.beqFields fs gs = true ↔ fs = gs
  | [], [] => by simp [JSVal.beqFields]
  | (k, v) :: fs, (l, w) :: gs => by
      simp only [JSVal.beqFields, Bool.and_eq_true, beq_iff_eq,
        JSVal.beq_iff v w, JSVal.beqFields_iff fs gs]
      constructor
      · rintro ⟨⟨h1, h2⟩, h3⟩
        simp [h1, h2, h3]
      · intro h
        injection h with h1 h2
        injection h1 with ha hb
        simp [ha, hb, h2]
  | _ :: _, [] => by simp [JSVal.beqFields]
  | [], _ :: _ => by simp [JSVal.beqFields]

end

instance : DecidableEq JSVal := fun a b =>
  decidable_of_iff (JSVal.beq a b = true) (JSVal.beq_iff a b)

instance {ε α : Type} [DecidableEq ε] [DecidableEq α] :
    DecidableEq (Except ε α) := fun x y =>
  match x, y with
  | .ok a, .ok b =>
      if h : a = b then .isTrue (by rw [h])
      else .isFalse (fun hh => h (by injection hh))
  | .error e, .error f =>
      if h : e = f then .isTrue (by rw [h])
      else .isFalse (fun hh => h (by injection hh))
  | .ok _, .error _ => .isFalse (fun hh => Except.noConfusion hh)
  | .error _, .ok _ => .isFalse (fun hh => Except.noConfusion hh)

/-- `isPlainObject` from the toolkit: true exactly for a plain keyed record. -/
def JSVal.isPlainObject : JSVal → Bool
  | .obj _ => true
  | _ => false

/-- First binding of key `k` in a field list (JS property lookup). -/
def lookupField : List (String × JSVal) → String → Option JSVal
  | [], _ => none
  | (k', v) :: rest, k => if k' = k then some v else lookupField rest k

/-- Property read `v[k]`; `none` models JS `undefined` (absent field, or a
receiver that is not a plain object). -/
def JSVal.getField : JSVal → String → Option JSVal
  | .obj fs, k => lookupField fs k
  | _, _ => none

/-- JS property assignment `target[k] = v` on an object's field list: updates
the first matching key in place, otherwise appends the field at the end
(JS insertion-order semantics). -/
def setField : List (String × JSVal) → String → JSVal → List (String × JSVal)
  | [], k, v => [(k, v)]
  | (k', v') :: rest, k, v =>
      if k' = k then (k, v) :: rest else (k', v') :: setField rest k v

/-- Left fold of JS property assignments: `upsertAll m l` writes every field
of `l`, in order, into `m`. -/
def upsertAll (m l : List (String × JSVal)) : List (String × JSVal) :=
  l.foldl (fun acc kv => setField acc kv.1 kv.2) m

/-- Optional chaining `original?.[key]` on a possibly-undefined receiver. -/
def optField (original : Option JSVal) (k : String) : Option JSVal :=
  match original with
  | none => none
  | some o => o.getField k

/-- `hardMerge` (src line 100): inbound wins unconditionally. -/
def hardMerge (inbound : JSVal) (_original : Option JSVal) (_reduced : JSVal) :
    JSVal := inbound

/-- `shallowMerge` (src lines 102-121): if `reduced` is not a plain object the
inbound value is returned verbatim.  Otherwise start from a copy of
`reduced`'s fields and, for each key of a plain-object `inbound`, skip the key
when `original?.[key] !== reduced[key]` (the same event already modified it),
else assign the inbound value. -/
def shallowMerge (inbound : JSVal) (original : Option JSVal) (reduced : JSVal) :
    JSVal :=
  match reduced with
  | .obj rfields =>
      match inbound with
      | .obj ifields =>
          .obj (ifields.foldl
            (fun acc kv =>
              if optField original kv.1 = lookupField rfields kv.1 then
                setField acc kv.1 kv.2
              else acc)
            rfields)
      | _ => .obj rfields
  | _ => inbound

/-- The `registered` flag of the meta-state: `false`, `true`, or the string
`"conflict"`. -/
inductive RegisteredFlag where
  | no : RegisteredFlag
  | yes : RegisteredFlag
  | conflict : RegisteredFlag
  deriving DecidableEq, Repr

/-- `PersistState` (src lines 18-21): the meta-state slice's state. -/
structure PersistState where
  hydrated : Bool
  registered : RegisteredFlag
  deriving DecidableEq, Repr

/-- `initialState` of the meta-state slice (src line 152). -/
def initialPersistState : PersistState := { hydrated := false, registered := .no }

/-- The actions flowing through the persistor.  The first four are the
persistor slice's own actions (src lines 156-180); `other` stands for any
action of a type the persistor does not own (an organic application event,
carrying its type string and payload). -/
inductive PAction where
  | middlewareRegistered (payload : String)
  | hydrate (name : String) (state : JSVal)
  | startHydrate
  | reset
  | other (type : String) (payload : JSVal)
  deriving DecidableEq, Repr

/-- The meta-state slice reducer (src lines 156-180) of the persistor instance
whose nanoid is `persistUid`: `middlewareRegistered` moves `registered` to
`'conflict'` when it already was `'conflict'` or the payload differs from
`persistUid`, else to `true`; `hydrate` sets `hydrated`; `startHydrate`'s case
reducer is a no-op; `reset` returns the initial state; actions the slice does
not own leave the state unchanged (createSlice's default case). -/
def persistReducer (persistUid : String) (state : PersistState)
    (action : PAction) : PersistState :=
  match action with
  | .middlewareRegistered payload =>
      { state with
        registered :=
          if state.registered = .conflict ∨ persistUid ≠ payload then .conflict
          else .yes }
  | .hydrate _ _ => { state with hydrated := true }
  | .startHydrate => state
  | .reset => initialPersistState
  | .other _ _ => state

/-- A run of `middlewareRegistered` events, in order, through the meta-state
slice reducer. -/
def runRegistered (persistUid : String) (s : PersistState)
    (uids : List String) : PersistState :=
  uids.foldl (fun st u => persistReducer persistUid st (.middlewareRegistered u)) s

/-- A JS object cannot bind the same key twice: a `JSVal` that arose from an
actual JS object has pairwise-distinct field keys.  (Non-objects carry no
keys.) -/
def objKeysNodup : JSVal → Prop
  | .obj fs => (fs.map Prod.fst).Nodup
  | _ => True

instance : (v : JSVal) → Decidable (objKeysNodup v)
  | .obj fs => inferInstanceAs (Decidable ((fs.map Prod.fst).Nodup))
  | .null => .isTrue trivial
  | .bool _ => .isTrue trivial
  | .num _ => .isTrue trivial
  | .str _ => .isTrue trivial

/-- Decimal digits to a number, most significant first; `none` on a
non-digit or on the empty list. -/
def natOfDigits : List Char → Nat → Option Nat
  | [], acc => some acc
  | c :: cs, acc =>
      if c.isDigit then natOfDigits cs (acc * 10 + (c.toNat - 48)) else none

/-- A decimal integer literal, with an optional leading minus sign. -/
def intOfString (s : String) : Option Int :=
  match s.data with
  | [] => none
  | '-' :: [] => none
  | '-' :: rest => (natOfDigits rest 0).map (fun n => -(n : Int))
  | cs => (natOfDigits cs 0).map (fun n => (n : Int))

/-- Model of the default text codec `JSON.parse`, restricted to the JSON
literals this development evaluates it on (null, booleans, integers); any
other input is modelled as a parse error.  JS coerces a non-string argument
with `String()`, so `JSON.parse(null)` parses the string `"null"` and yields
the null value. -/
def jsonParse (s : String) : Except String JSVal :=
  if s = "null" then .ok .null
  else if s = "true" then .ok (.bool true)
  else if s = "false" then .ok (.bool false)
  else
    match intOfString s with
    | some n => .ok (.num n)
    | none => .error s

mutual

/-- Model of the default text codec `JSON.stringify` (string escaping is not
modelled; no string used in this development needs it). -/
def jsonStringify : JSVal → String
  | .null => "null"
  | .bool true => "true"
  | .bool false => "false"
  | .num n => toString n
  | .str s => "\"" ++ s ++ "\""
  | .obj fs => "\x7b" ++ jsonStringifyFields fs ++ "\x7d"

/-- Comma-separated `"key":value` rendering of an object's fields. -/
def jsonStringifyFields : List (String × JSVal) → String
  | [] => ""
  | [(k, v)] => "\"" ++ k ++ "\":" ++ jsonStringify v
  | (k, v) :: rest =>
      "\"" ++ k ++ "\":" ++ jsonStringify v ++ "," ++ jsonStringifyFields rest

end

/-- `getStoredState` (src lines 70-81) at the default `deserialize`
(`JSON.parse`): awaits `storage.getItem(name)` — modelled by its settled
result `stored`, where `none` means the backend held no value and yielded
null — then deserializes.  `JSON.parse` coerces a null argument to the
string `"null"`. -/
def getStoredStateDefault (stored : Option String) : Except String JSVal :=
  jsonParse (match stored with | some s => s | none => "null")

/-- `storeState` (src lines 83-98) at the default `serialize`
(`JSON.stringify`): the payload handed to `storage.setItem(name, _)` for the
`state` argument the caller passed. -/
def storeStatePayload (state : JSVal) : String := jsonStringify state

/-- One key's branch of the hydration fan-out (src lines 207-214), as a
function of that key's settled read result (`getStoredState` fulfilled or
rejected/threw): on success the middleware dispatches `hydrate(name, state)`
(returned first), on failure it invokes `onError` with the error (returned
second); either way the branch settles and never rejects. -/
def hydrateKeyAttempt (name : String) (read : Except String JSVal) :
    Option (String × JSVal) × Option String :=
  match read with
  | .ok v => (some (name, v), none)
  | .error e => (none, some e)

/-- The whole hydration fan-out `Promise.all` body (src lines 206-215) over
the settled per-key read results: the `hydrate` dispatches it emits and the
errors it routes to `onError`. -/
def hydrateFanout (outcomes : List (String × Except String JSVal)) :
    List (String × JSVal) × List String :=
  (outcomes.filterMap (fun p => (hydrateKeyAttempt p.1 p.2).1),
   outcomes.filterMap (fun p => (hydrateKeyAttempt p.1 p.2).2))

/-- The `hydrate` dispatches the fan-out emits for one particular key `L`. -/
def hydratedFor (outcomes : List (String × Except String JSVal)) (L : String) :
    List (String × JSVal) :=
  (hydrateFanout outcomes).1.filter (fun p => p.1 == L)

/-- One key's write-back attempt `storeState(name, stateAfter, entry)
.catch(onError)` (src lines 231-232), as a function of the settled write
result: a fulfilled write reports nothing; a rejected write (storage `setItem`
failure, or a `serialize` throw inside the async function) reports its error
to `onError` — nothing is surfaced to the dispatcher, whose result was
already returned. -/
def writeAttemptReport : Except String Unit → Option String
  | .ok _ => none
  | .error e => some e

/-- Per-key persistence configuration (src lines 55-60), at the model's
granularity: `storage` is the external capability, represented at use sites
by the settled outcome lists fed to the fan-out functions; `serialize` and
`deserialize` are modelled at their defaults by `storeStatePayload` and
`getStoredStateDefault`; `merge` is the optional merge strategy.  (The
`config` argument a custom `StateMerger` receives as its fourth parameter is
dropped: no strategy in the source reads it.) -/
structure PersistConfig where
  merge : Option (JSVal → Option JSVal → JSVal → JSVal)

/-- The reducer returned by `persistSlice` (src lines 249-263): run the wrapped
slice's own reducer first; if the action is this persistor's `hydrate` action
for this slice's `name`, reconcile the inbound payload with the reduced state
through the configured merge strategy (`shallowMerge` when the config leaves
it unspecified); otherwise return the reduced state unchanged. -/
def persistSliceWrapped (name : String)
    (reducer : Option JSVal → PAction → JSVal) (config : PersistConfig)
    (state : Option JSVal) (action : PAction) : JSVal :=
  let merge := config.merge.getD shallowMerge
  let reducedState := reducer state action
  match action with
  | .hydrate n v => if n = name then merge v state reducedState else reducedState
  | _ => reducedState

/-- An effect the middleware initiates during a synchronous dispatch:
`write k s` records a `storeState(k, s, entry)` call (the write-back fan-out,
src lines 230-234), `readInitiated k` records a `getStoredState(k, entry)`
call (the hydration fan-out, src line 209).  Both run asynchronously; only
their initiation belongs to the dispatch. -/
inductive MWEff (σ : Type) where
  | write (key : String) (state : σ)
  | readInitiated (key : String)
  deriving DecidableEq, Repr

/-- Whether an effect is a hydration read initiation. -/
def MWEff.isRead {σ : Type} : MWEff σ → Bool
  | .readInitiated _ => true
  | _ => false

/-- What the middleware arm returns to the dispatcher: `forwarded` is
`next(action)`'s result (src line 235), `hydrationPromise keys` is the
`Promise.all` over the registry returned by the short-circuit (src lines
206-215), which resolves once every per-key attempt has settled. -/
inductive MWOutcome where
  | forwarded : MWOutcome
  | hydrationPromise (keys : List String) : MWOutcome
  deriving DecidableEq, Repr

/-- The processing a nested `dispatch(middlewareRegistered(persistUid))` (src
lines 199 and 204) receives when it re-enters the chain: by then
`initialized` is already true and the action matches neither `reset` nor
`hydrate`, so the middleware captures the state, forwards to the reducers,
and fans out a write-back for every registered key if the state identity
changed (src lines 201, 228-235).  `mwDispatch_registered` below checks this
helper against the general dispatch path. -/
def registeredDispatch {σ : Type} [DecidableEq σ] (persistUid : String)
    (rootReducer : σ → PAction → σ) (registry : List String) (store : σ) :
    σ × List (MWEff σ) :=
  let stateAfter := rootReducer store (.middlewareRegistered persistUid)
  (stateAfter,
    if store = stateAfter then []
    else registry.map (fun k => MWEff.write k stateAfter))

/-- The middleware's per-dispatch arm (src lines 196-236) for the persistor
instance `persistUid` with registered keys `registry`, over a store whose
(synchronous, black-box) reducer pass is `rootReducer`.  Threads the
closure's `initialized` flag and the store state, and returns the effect
trace in initiation order together with the value handed back to the
dispatcher:
* first-ever invocation: synchronously dispatch `middlewareRegistered`
  through the whole chain before anything else (lines 197-200);
* capture `stateBefore` (line 201);
* a `reset` action additionally re-dispatches `middlewareRegistered`
  (lines 203-204);
* an action matching the per-key `hydrate` action short-circuits: it
  initiates a read for every registry entry and returns the `Promise.all`
  without ever forwarding to `next` (lines 205-215);
* every other action is forwarded; if the state identity changed, a
  write-back of the new state is initiated for every registered key, and
  `next`'s own result is returned regardless (lines 228-235). -/
def mwDispatch {σ : Type} [DecidableEq σ] (persistUid : String)
    (rootReducer : σ → PAction → σ) (registry : List String)
    (initialized : Bool) (store : σ) (action : PAction) :
    Bool × σ × List (MWEff σ) × MWOutcome :=
  let init :=
    if initialized then (store, ([] : List (MWEff σ)))
    else registeredDispatch persistUid rootReducer registry store
  let stateBefore := init.1
  let afterReset :=
    match action with
    | .reset =>
        let r := registeredDispatch persistUid rootReducer registry init.1
        (r.1, init.2 ++ r.2)
    | _ => init
  match action with
  | .hydrate _ _ =>
      (true, afterReset.1,
       afterReset.2 ++ registry.map MWEff.readInitiated,
       .hydrationPromise registry)
  | _ =>
      let stateAfter := rootReducer afterReset.1 action
      (true, stateAfter,
       afterReset.2 ++
         (if stateBefore = stateAfter then []
          else registry.map (fun k => MWEff.write k stateAfter)),
       .forwarded)

/-- The enhancer (src lines 239-247): install the middleware, construct the
store — `preloaded` is the state right after base construction — then
immediately dispatch `startHydrate()` through the chain (whose `initialized`
flag is still false) before returning the store.  Returns the store state
handed back to the caller, the effect trace of that dispatch, and the
dispatch's own result. -/
def enhancerConstruct {σ : Type} [DecidableEq σ] (persistUid : String)
    (rootReducer : σ → PAction → σ) (registry : List String) (preloaded : σ) :
    σ × List (MWEff σ) × MWOutcome :=
  let r := mwDispatch persistUid rootReducer registry false preloaded .startHydrate
  (r.2.1, r.2.2.1, r.2.2.2)

/-- The nanoid of the demo persistor instance. -/
def demoUid : String := "uid-1"

/-- The JS value the meta-state's `registered` flag reads back as. -/
def registeredVal : RegisteredFlag → JSVal
  | .no => .bool false
  | .yes => .bool true
  | .conflict => .str "conflict"

/-- The meta-state as the JS value stored under the persistor's reducer path. -/
def persistStateVal (s : PersistState) : JSVal :=
  .obj [("hydrated", .bool s.hydrated), ("registered", registeredVal s.registered)]

/-- Decode the `registered` flag back from its JS value. -/
def registeredOfVal : Option JSVal → RegisteredFlag
  | some (.bool true) => .yes
  | some (.str "conflict") => .conflict
  | _ => .no

/-- Decode the meta-state from the slice's JS value (`none` = not yet
initialized, decoded as the initial state, matching redux initialization). -/
def persistStateOfVal : Option JSVal → PersistState
  | none => initialPersistState
  | some v =>
      { hydrated := match v.getField "hydrated" with | some (.bool b) => b | _ => false
        registered := registeredOfVal (v.getField "registered") }

/-- The persistor meta-state slice reducer lifted to the JS-value level, as it
sits inside a combined root reducer. -/
def persistReduceVal (persistUid : String) (state : Option JSVal)
    (action : PAction) : JSVal :=
  persistStateVal (persistReducer persistUid (persistStateOfVal state) action)

/-- `combineSlices`/`combineReducers` over two named slice reducers: the root
state is a plain object with one field per slice.  (`combineReducers` returns
the same root object exactly when no child changed; under this model's
identity-as-value abstraction that is value equality of the rebuilt object.) -/
def combineTwo (n1 : String) (r1 : Option JSVal → PAction → JSVal)
    (n2 : String) (r2 : Option JSVal → PAction → JSVal)
    (s : JSVal) (a : PAction) : JSVal :=
  .obj [(n1, r1 (s.getField n1) a), (n2, r2 (s.getField n2) a)]

/-- The demo counter slice reducer: initial state `0`, `counter/increment`
adds one, any other action leaves the state unchanged (createSlice's default
case). -/
def counterReduce (state : Option JSVal) (action : PAction) : JSVal :=
  let s := state.getD (.num 0)
  match action, s with
  | .other "counter/increment" _, .num n => .num (n + 1)
  | _, _ => s

/-- The demo flag slice reducer: initial state `false`, no own actions. -/
def flagReduce (state : Option JSVal) (_action : PAction) : JSVal :=
  state.getD (.bool false)

/-- The demo store's root reducer: the persistor-wrapped counter slice
combined with the persistor's own meta-state slice (as the test store in the
repository wires it). -/
def demoRoot : JSVal → PAction → JSVal :=
  combineTwo "counter"
    (persistSliceWrapped "counter" counterReduce { merge := none })
    "persistor" (persistReduceVal demoUid)

/-- The demo store's registry: the one persisted key. -/
def demoRegistry : List String := ["counter"]

/-- The demo store's state right after base construction. -/
def demoInit : JSVal :=
  .obj [("counter", .num 0), ("persistor", persistStateVal initialPersistState)]

/-- The demo store's state once the middleware's lazy first-dispatch
registration has been reduced. -/
def demoRegisteredState : JSVal :=
  demoRoot demoInit (.middlewareRegistered demoUid)

/-- Sanity check of the model: the general dispatch path, entered with
`initialized = true` on the persistor's own `middlewareRegistered` action,
coincides with the `registeredDispatch` helper used for the nested
dispatches. -/
theorem mwDispatch_registered {σ : Type} [DecidableEq σ] (persistUid : String)
    (rootReducer : σ → PAction → σ) (registry : List String) (store : σ) :
    mwDispatch persistUid rootReducer registry true store
        (.middlewareRegistered persistUid)
      = (true, (registeredDispatch persistUid rootReducer registry store).1,
         (registeredDispatch persistUid rootReducer registry store).2,
         .forwarded) := by
  simp [mwDispatch, registeredDispatch]

theorem lookupField_setField_self (l : List (String × JSVal)) (k : String)
    (v : JSVal) : lookupField (setField l k v) k = some v := by
  induction l with
  | nil => simp [setField, lookupField]
  | cons hd tl ih =>
      obtain ⟨k', v'⟩ := hd
      by_cases h : k' = k
      · simp [setField, h, lookupField]
      · simp [setField, h, lookupField, ih]

theorem lookupField_setField_other (l : List (String × JSVal))
    (k' k : String) (v : JSVal) (h : k' ≠ k) :
    lookupField (setField l k' v) k = lookupField l k := by
  induction l with
  | nil => simp [setField, lookupField, h]
  | cons hd tl ih =>
      obtain ⟨k0, v0⟩ := hd
      by_cases h0 : k0 = k'
      · subst h0
        simp [setField, lookupField, h]
      · simp only [setField, if_neg h0, lookupField]
        by_cases h1 : k0 = k
        · simp [h1]
        · simp [h1, ih]

theorem setField_of_lookupField (l : List (String × JSVal)) (k : String)
    (v : JSVal) (h : lookupField l k = some v) : setField l k v = l := by
  induction l with
  | nil => simp [lookupField] at h
  | cons hd tl ih =>
      obtain ⟨k0, v0⟩ := hd
      by_cases h0 : k0 = k
      · subst h0
        simp [lookupField] at h
        simp [setField, h]
      · simp [lookupField, h0] at h
        simp [setField, h0, ih h]

theorem setField_of_not_mem (l : List (String × JSVal)) (k : String)
    (v : JSVal) (h : k ∉ l.map Prod.fst) : setField l k v = l ++ [(k, v)] := by
  induction l with
  | nil => simp [setField]
  | cons hd tl ih =>
      obtain ⟨k0, v0⟩ := hd
      simp only [List.map_cons, List.mem_cons] at h
      push_neg at h
      simp [setField, Ne.symm h.1, ih h.2]

theorem upsertAll_nil (m : List (String × JSVal)) : upsertAll m [] = m := rfl

theorem upsertAll_cons (m : List (String × JSVal)) (k : String) (v : JSVal)
    (t : List (String × JSVal)) :
    upsertAll m ((k, v) :: t) = upsertAll (setField m k v) t := rfl

theorem lookupField_upsertAll_not_mem (l m : List (String × JSVal))
    (k : String) (h : k ∉ l.map Prod.fst) :
    lookupField (upsertAll m l) k = lookupField m k := by
  induction l generalizing m with
  | nil => rfl
  | cons hd tl ih =>
      obtain ⟨k0, v0⟩ := hd
      simp only [List.map_cons, List.mem_cons] at h
      push_neg at h
      rw [upsertAll_cons, ih _ h.2, lookupField_setField_other _ _ _ _ (Ne.symm h.1)]

theorem upsertAll_idem (l m : List (String × JSVal))
    (h : (l.map Prod.fst).Nodup) :
    upsertAll (upsertAll m l) l = upsertAll m l := by
  induction l generalizing m with
  | nil => rfl
  | cons hd tl ih =>
      obtain ⟨k, v⟩ := hd
      simp only [List.map_cons, List.nodup_cons] at h
      rw [upsertAll_cons, upsertAll_cons]
      have hk : lookupField (upsertAll (setField m k v) tl) k = some v := by
        rw [lookupField_upsertAll_not_mem _ _ _ h.1, lookupField_setField_self]
      rw [setField_of_lookupField _ _ _ hk]
      exact ih _ h.2

theorem upsertAll_of_disjoint (l m : List (String × JSVal))
    (hl : (l.map Prod.fst).Nodup)
    (hd : ∀ k ∈ l.map Prod.fst, k ∉ m.map Prod.fst) :
    upsertAll m l = m ++ l := by
  induction l generalizing m with
  | nil => simp [upsertAll_nil]
  | cons hd0 tl ih =>
      obtain ⟨k, v⟩ := hd0
      simp only [List.map_cons, List.nodup_cons] at hl
      rw [upsertAll_cons, setField_of_not_mem _ _ _ (hd k (by simp))]
      have hdisj : ∀ k' ∈ tl.map Prod.fst, k' ∉ (m ++ [(k, v)]).map Prod.fst := by
        intro k' hk'
        simp only [List.map_append, List.mem_append]
        push_neg
        refine ⟨hd k' (by simp [hk']), ?_⟩
        simp only [List.map_cons, List.map_nil, List.mem_singleton]
        intro hkk
        exact hl.1 (hkk ▸ hk')
      rw [ih _ hl.2 hdisj]
      simp

theorem upsertAll_self (l : List (String × JSVal))
    (h : (l.map Prod.fst).Nodup) : upsertAll l l = l := by
  have h0 : upsertAll ([] : List (String × JSVal)) l = l := by
    simpa using upsertAll_of_disjoint l [] h (by simp)
  calc upsertAll l l = upsertAll (upsertAll [] l) l := by rw [h0]
    _ = upsertAll [] l := upsertAll_idem l [] h
    _ = l := h0

theorem shallowMerge_self_obj (uf : List (String × JSVal)) (v : JSVal) :
    shallowMerge v (some (.obj uf)) (.obj uf)
      = match v with
        | .obj vf => .obj (upsertAll uf vf)
        | _ => .obj uf := by
  cases v with
  | obj vf =>
      simp only [shallowMerge]
      congr 1
      have hfun :
          (fun (acc : List (String × JSVal)) (kv : String × JSVal) =>
            if optField (some (JSVal.obj uf)) kv.1 = lookupField uf kv.1 then
              setField acc kv.1 kv.2
            else acc)
          = fun acc kv => setField acc kv.1 kv.2 := by
        funext acc kv
        exact if_pos rfl
      rw [hfun]
      rfl
  | null => rfl
  | bool b => rfl
  | num n => rfl
  | str s => rfl

theorem lookupField_condFold_not_mem (o : Option JSVal)
    (rfields : List (String × JSVal)) :
    ∀ (ifields acc : List (String × JSVal)) (k : String),
      k ∉ ifields.map Prod.fst →
      lookupField
        (ifields.foldl
          (fun acc kv =>
            if optField o kv.1 = lookupField rfields kv.1 then
              setField acc kv.1 kv.2
            else acc)
          acc) k = lookupField acc k := by
  intro ifields
  induction ifields with
  | nil => intro acc k _; rfl
  | cons hd tl ih =>
      intro acc k hk
      obtain ⟨k0, v0⟩ := hd
      simp only [List.map_cons, List.mem_cons] at hk
      push_neg at hk
      rw [List.foldl_cons, ih _ _ hk.2]
      by_cases hc : optField o k0 = lookupField rfields k0
      · simp only [hc, if_pos rfl]
        exact lookupField_setField_other _ _ _ _ (Ne.symm hk.1)
      · simp [hc]

theorem lookupField_condFold (o : Option JSVal)
    (rfields : List (String × JSVal)) :
    ∀ (ifields acc : List (String × JSVal)) (k : String),
      (ifields.map Prod.fst).Nodup →
      lookupField
        (ifields.foldl
          (fun acc kv =>
            if optField o kv.1 = lookupField rfields kv.1 then
              setField acc kv.1 kv.2
            else acc)
          acc) k
        = match lookupField ifields k with
          | some w =>
              if optField o k = lookupField rfields k then some w
              else lookupField acc k
          | none => lookupField acc k := by
  intro ifields
  induction ifields with
  | nil => intro acc k _; rfl
  | cons hd tl ih =>
      intro acc k hnd
      obtain ⟨k0, v0⟩ := hd
      simp only [List.map_cons, List.nodup_cons] at hnd
      rw [List.foldl_cons]
      by_cases hk : k0 = k
      · subst hk
        rw [lookupField_condFold_not_mem o rfields tl _ k0 hnd.1]
        simp only [lookupField, if_pos rfl]
        by_cases hc : optField o k0 = lookupField rfields k0
        · simp [hc, lookupField_setField_self]
        · simp [hc]
      · rw [ih _ k hnd.2]
        simp only [lookupField, if_neg hk]
        have hstep :
            lookupField
              (if optField o k0 = lookupField rfields k0 then setField acc k0 v0
               else acc) k = lookupField acc k := by
          by_cases hc : optField o k0 = lookupField rfields k0
          · simp [hc, lookupField_setField_other _ _ _ _ hk]
          · simp [hc]
        cases hlk : lookupField tl k <;> simp [hstep]

theorem runRegistered_cons (persistUid u : String) (s : PersistState)
    (t : List String) :
    runRegistered persistUid s (u :: t)
      = runRegistered persistUid
          (persistReducer persistUid s (.middlewareRegistered u)) t := rfl

theorem runRegistered_conflict (persistUid : String) (uids : List String) :
    ∀ s : PersistState, s.registered = .conflict →
      (runRegistered persistUid s uids).registered = .conflict := by
  induction uids with
  | nil => intro s h; exact h
  | cons u t ih =>
      intro s h
      rw [runRegistered_cons]
      exact ih _ (by simp [persistReducer, h])

theorem runRegistered_registered (persistUid : String) (uids : List String) :
    ∀ s : PersistState, s.registered ≠ .conflict →
      (runRegistered persistUid s uids).registered =
        (if uids = [] then s.registered
         else if uids.all (· = persistUid) then .yes else .conflict) := by
  induction uids with
  | nil => intro s _; simp [runRegistered]
  | cons u t ih =>
      intro s h
      rw [runRegistered_cons]
      by_cases hu : u = persistUid
      · subst hu
        have hstep :
            (persistReducer u s (.middlewareRegistered u)).registered
              = .yes := by
          simp [persistReducer, h]
        by_cases ht : t = []
        · subst ht
          simp [runRegistered, hstep]
        · rw [ih _ (by simp [hstep])]
          simp [ht, hstep]
      · have hstep :
            (persistReducer persistUid s (.middlewareRegistered u)).registered
              = .conflict := by
          simp [persistReducer, Ne.symm hu]
        rw [runRegistered_conflict persistUid t _ hstep]
        simp [hu]

theorem shallowMerge_of_not_plain (inbound : JSVal) (original : Option JSVal)
    (reduced : JSVal) (h : reduced.isPlainObject = false) :
    shallowMerge inbound original reduced = inbound := by
  cases reduced with
  | obj fs => simp [JSVal.isPlainObject] at h
  | null => rfl
  | bool b => rfl
  | num n => rfl
  | str s => rfl

theorem shallowMerge_nonobj_inbound (inbound : JSVal) (original : Option JSVal)
    (rfields : List (String × JSVal)) (h : inbound.isPlainObject = false) :
    shallowMerge inbound original (.obj rfields) = .obj rfields := by
  cases inbound with
  | obj fs => simp [JSVal.isPlainObject] at h
  | null => rfl
  | bool b => rfl
  | num n => rfl
  | str s => rfl

theorem shallowMerge_self_self (v : JSVal) (h : objKeysNodup v) :
    shallowMerge v (some v) v = v := by
  cases v with
  | obj vf =>
      have h1 : shallowMerge (.obj vf) (some (.obj vf)) (.obj vf)
          = .obj (upsertAll vf vf) := shallowMerge_self_obj vf (.obj vf)
      rw [h1, upsertAll_self vf h]
  | null => rfl
  | bool b => rfl
  | num n => rfl
  | str s => rfl

theorem shallowMerge_idem (v s : JSVal) (h : objKeysNodup v) :
    shallowMerge v (some (shallowMerge v (some s) s)) (shallowMerge v (some s) s)
      = shallowMerge v (some s) s := by
  cases s with
  | obj uf =>
      cases v with
      | obj vf =>
          have hnd : (vf.map Prod.fst).Nodup := h
          have h1 : shallowMerge (.obj vf) (some (.obj uf)) (.obj uf)
              = .obj (upsertAll uf vf) := shallowMerge_self_obj uf (.obj vf)
          have h2 : shallowMerge (.obj vf)
                (some (.obj (upsertAll uf vf))) (.obj (upsertAll uf vf))
              = .obj (upsertAll (upsertAll uf vf) vf) :=
            shallowMerge_self_obj (upsertAll uf vf) (.obj vf)
          rw [h1, h2, upsertAll_idem vf uf hnd]
      | null => rfl
      | bool b => rfl
      | num n => rfl
      | str s => rfl
  | null =>
      have h1 : shallowMerge v (some JSVal.null) JSVal.null = v := rfl
      rw [h1]
      exact shallowMerge_self_self v h
  | bool b =>
      have h1 : shallowMerge v (some (JSVal.bool b)) (JSVal.bool b) = v := rfl
      rw [h1]
      exact shallowMerge_self_self v h
  | num n =>
      have h1 : shallowMerge v (some (JSVal.num n)) (JSVal.num n) = v := rfl
      rw [h1]
      exact shallowMerge_self_self v h
  | str t =>
      have h1 : shallowMerge v (some (JSVal.str t)) (JSVal.str t) = v := rfl
      rw [h1]
      exact shallowMerge_self_self v h

/-- Claim C4: `shallowMerge` returns `inbound` verbatim when `reduced` is not
a plain keyed record; otherwise it starts from `reduced`'s fields and, for
each top-level field present in `inbound`, overwrites with the inbound value
unless that field differs between `original` and `reduced`, in which case the
live (reduced) value is kept — stated pointwise through property lookup; and
on `original = (a:1, b:1)`, `reduced = (a:1, b:2)`, `inbound = (a:9, b:9)`
the result is `(a:9, b:2)`. -/
theorem C4_shallowMerge_spec (inbound : JSVal) (original : Option JSVal)
    (ifields rfields : List (String × JSVal)) (k : String)
    (hnd : (ifields.map Prod.fst).Nodup) :
    (∀ reduced : JSVal, reduced.isPlainObject = false →
      shallowMerge inbound original reduced = inbound) ∧
    (inbound.isPlainObject = false →
      shallowMerge inbound original (.obj rfields) = .obj rfields) ∧
    ((shallowMerge (.obj ifields) original (.obj rfields)).getField k
      = match lookupField ifields k with
        | some w =>
            if optField original k = lookupField rfields k then some w
            else lookupField rfields k
        | none => lookupField rfields k) ∧
    (shallowMerge (.obj [("a", .num 9), ("b", .num 9)])
        (some (.obj [("a", .num 1), ("b", .num 1)]))
        (.obj [("a", .num 1), ("b", .num 2)])
      = .obj [("a", .num 9), ("b", .num 2)]) := by
  refine ⟨fun reduced h => shallowMerge_of_not_plain inbound original reduced h,
    fun h => shallowMerge_nonobj_inbound inbound original rfields h,
    ?_, by decide⟩
  simp only [shallowMerge, JSVal.getField]
  exact lookupField_condFold original rfields ifields rfields k hnd

/-- Witness for C4: the characterization applied at concrete inputs — a
non-record reduced state yields the inbound object, and on recorded states
the field `a` (untouched by the reducer) takes the inbound value. -/
theorem C4_shallowMerge_spec_witness :
    shallowMerge (.obj [("a", .num 9)]) (some (.obj [("a", .num 1)])) (.num 5)
        = .obj [("a", .num 9)] ∧
    (shallowMerge (.obj [("a", .num 9)]) (some (.obj [("a", .num 1)]))
        (.obj [("a", .num 1), ("b", .num 2)])).getField "a" = some (.num 9) := by
  have h := C4_shallowMerge_spec (.obj [("a", .num 9)])
    (some (.obj [("a", .num 1)])) [("a", .num 9)] [("a", .num 1), ("b", .num 2)]
    "a" (by decide)
  refine ⟨h.1 (.num 5) (by decide), ?_⟩
  rw [h.2.2.1]
  decide

/-- Claim C5: the reducer returned by the wrap operation first computes
`reducedState = original(state, event)`; if the event is a HydrateEvent whose
key equals this reducer's key it returns `merge(event.value, state,
reducedState)`, where `merge` defaults to the shallow strategy when the
config leaves it unspecified; for every other event it returns `reducedState`
unchanged. -/
theorem C5_wrapped_reducer (name : String)
    (reducer : Option JSVal → PAction → JSVal) (config : PersistConfig)
    (state : Option JSVal) :
    (∀ v, persistSliceWrapped name reducer config state (.hydrate name v)
      = (config.merge.getD shallowMerge) v state
          (reducer state (.hydrate name v))) ∧
    (config.merge = none → ∀ v,
      persistSliceWrapped name reducer config state (.hydrate name v)
        = shallowMerge v state (reducer state (.hydrate name v))) ∧
    (∀ n v, n ≠ name →
      persistSliceWrapped name reducer config state (.hydrate n v)
        = reducer state (.hydrate n v)) ∧
    (∀ a, (∀ n v, a ≠ .hydrate n v) →
      persistSliceWrapped name reducer config state a = reducer state a) := by
  refine ⟨fun v => by simp [persistSliceWrapped],
    fun hm v => by simp [persistSliceWrapped, hm],
    fun n v hn => by simp [persistSliceWrapped, hn],
    fun a ha => ?_⟩
  cases a with
  | hydrate n v => exact absurd rfl (ha n v)
  | middlewareRegistered p => rfl
  | startHydrate => rfl
  | reset => rfl
  | other t p => rfl

/-- Witness for C5 on the demo counter slice: a matching HydrateEvent is
merged through the default shallow strategy, a HydrateEvent for another key
and a reset event both pass straight through the inner reducer. -/
theorem C5_wrapped_reducer_witness :
    persistSliceWrapped "counter" counterReduce { merge := none }
        (some (.num 0)) (.hydrate "counter" (.num 5))
      = shallowMerge (.num 5) (some (.num 0))
          (counterReduce (some (.num 0)) (.hydrate "counter" (.num 5))) ∧
    persistSliceWrapped "counter" counterReduce { merge := none }
        (some (.num 0)) (.hydrate "flag" (.num 5))
      = counterReduce (some (.num 0)) (.hydrate "flag" (.num 5)) ∧
    persistSliceWrapped "counter" counterReduce { merge := none }
        (some (.num 0)) .reset
      = counterReduce (some (.num 0)) .reset := by
  have h := C5_wrapped_reducer "counter" counterReduce { merge := none }
    (some (.num 0))
  exact ⟨h.2.1 rfl (.num 5), h.2.2.1 "flag" (.num 5) (by decide),
    h.2.2.2 .reset (fun n v hh => PAction.noConfusion hh)⟩

/-- Claim C9: with the registry entry's default (shallow) merge strategy,
applying the wrapped reducer twice in a row to the same HydrateEvent for its
key yields, after the second application, a state equal in value to the state
after the first.  Hypotheses render the claim's frame: the inner slice
reducer — like any createSlice reducer without a case for the persistor's
hydrate action type — leaves its state unchanged on that event (so no
"intervening organic event" hides inside the hydrate dispatch itself), and
the inbound value, having come from a JS object, has duplicate-free keys. -/
theorem C9_hydrate_idempotent (name : String) (v : JSVal)
    (reducer : Option JSVal → PAction → JSVal) (config : PersistConfig)
    (hdefault : config.merge = none)
    (hred : ∀ t : JSVal, reducer (some t) (.hydrate name v) = t)
    (hkeys : objKeysNodup v) (s : JSVal) :
    persistSliceWrapped name reducer config
        (some (persistSliceWrapped name reducer config (some s)
          (.hydrate name v)))
        (.hydrate name v)
      = persistSliceWrapped name reducer config (some s) (.hydrate name v) := by
  have hw : ∀ t : JSVal,
      persistSliceWrapped name reducer config (some t) (.hydrate name v)
        = shallowMerge v (some t) t := by
    intro t
    simp [persistSliceWrapped, hdefault, hred t]
  rw [hw s]
  rw [hw (shallowMerge v (some s) s)]
  exact shallowMerge_idem v s hkeys

/-- Witness for C9: hydrating the demo flag slice twice with the same object
payload lands on the same value both times. -/
theorem C9_hydrate_idempotent_witness :
    persistSliceWrapped "counter" flagReduce { merge := none }
        (some (persistSliceWrapped "counter" flagReduce { merge := none }
          (some (.obj [("a", .num 1), ("b", .num 1)]))
          (.hydrate "counter" (.obj [("a", .num 9)]))))
        (.hydrate "counter" (.obj [("a", .num 9)]))
      = persistSliceWrapped "counter" flagReduce { merge := none }
          (some (.obj [("a", .num 1), ("b", .num 1)]))
          (.hydrate "counter" (.obj [("a", .num 9)])) :=
  C9_hydrate_idempotent "counter" (.obj [("a", .num 9)]) flagReduce
    { merge := none } rfl (fun t => rfl) (by decide)
    (.obj [("a", .num 1), ("b", .num 1)])

/-- Counterexample to claim C6 as stated: from the initial state no instance
id has been seen yet, so by the claim the first RegisteredEvent — whatever id
it carries — should set `registered` to true; but the slice reducer of the
instance whose own id is "A", fed a first RegisteredEvent carrying "B",
moves `registered` straight to `'conflict'`, not to true. -/
theorem C6_first_foreign_id_conflict :
    (persistReducer "A" initialPersistState
        (.middlewareRegistered "B")).registered = .conflict ∧
    decide ((persistReducer "A" initialPersistState
        (.middlewareRegistered "B")).registered = RegisteredFlag.yes)
      = false := by
  decide

/-- Claim C6 (amended): a RegisteredEvent sets `registered` to true when it
was not `'conflict'` and the carried id equals this coordinator instance's
own id; any id differing from the instance's own id — even the first id ever
seen — flips it to `'conflict'`; `'conflict'` is terminal under
RegisteredEvents; and reset restores false, re-arming detection.  Stated over
whole runs: from the initial state, a run of RegisteredEvents ends in true
exactly when it is nonempty and every id is the instance's own, and in
`'conflict'` exactly when some foreign id occurred. -/
theorem C6_registered_machine (persistUid : String) (uids : List String) :
    ((runRegistered persistUid initialPersistState uids).registered
      = if uids = [] then .no
        else if uids.all (· = persistUid) then .yes else .conflict) ∧
    (∀ (s : PersistState) (uid : String), s.registered = .conflict →
      (persistReducer persistUid s (.middlewareRegistered uid)).registered
        = .conflict) ∧
    (∀ s : PersistState, persistReducer persistUid s .reset
      = initialPersistState) := by
  refine ⟨?_, ?_, fun s => rfl⟩
  · have h := runRegistered_registered persistUid uids initialPersistState
      (by simp [initialPersistState])
    simpa [initialPersistState] using h
  · intro s uid hs
    simp [persistReducer, hs]

/-- Witness for C6 (amended): the instance with id "A" seeing the run
["A", "B"] ends in conflict; a conflicted state absorbs further registered
events; reset restores the initial state. -/
theorem C6_registered_machine_witness :
    (runRegistered "A" initialPersistState ["A", "B"]).registered
        = .conflict ∧
    (persistReducer "A" { hydrated := true, registered := .conflict }
        (.middlewareRegistered "A")).registered = .conflict ∧
    persistReducer "A" { hydrated := true, registered := .yes } .reset
        = initialPersistState := by
  have h := C6_registered_machine "A" ["A", "B"]
  refine ⟨?_, h.2.1 { hydrated := true, registered := .conflict } "A" rfl,
    h.2.2 { hydrated := true, registered := .yes }⟩
  rw [h.1]
  decide

theorem filter_isRead_writes {σ : Type} (l : List String) (st : σ) :
    (l.map (fun k => MWEff.write k st)).filter MWEff.isRead = [] := by
  induction l with
  | nil => rfl
  | cons a t ih => simp [MWEff.isRead, ih]

theorem filter_isRead_gating {σ : Type} [DecidableEq σ] (c : Prop)
    [Decidable c] (l : List String) (st : σ) :
    ((if c then ([] : List (MWEff σ))
      else l.map (fun k => MWEff.write k st)).filter MWEff.isRead) = [] := by
  split_ifs with h
  · rfl
  · exact filter_isRead_writes l st

/-- Claim C1 (code bug, theorem evaluating the code): the enhancer does
dispatch the start-hydrate event right after construction, but the
middleware's short-circuit tests the per-key hydrate action (`hydrate.match`,
src line 205), not the start-hydrate action the enhancer dispatches (src line
244).  Hence for every store: a `startHydrate` dispatch is forwarded like an
ordinary action — it initiates no storage read for any registry entry and
hands back `next`'s result, not a settlement promise — and the whole
enhancer construction initiates no read either; it is the per-key `hydrate`
action that short-circuits into the fan-out. -/
theorem C1_startHydrate_not_intercepted {σ : Type} [DecidableEq σ]
    (persistUid : String) (rootReducer : σ → PAction → σ)
    (registry : List String) (initialized : Bool) (s : σ) :
    ((mwDispatch persistUid rootReducer registry initialized s
        .startHydrate).2.2.2 = .forwarded) ∧
    ((mwDispatch persistUid rootReducer registry initialized s
        .startHydrate).2.2.1.filter MWEff.isRead = []) ∧
    ((enhancerConstruct persistUid rootReducer registry s).2.2
        = .forwarded) ∧
    (∀ (b : Bool) (st : σ) (n : String) (v : JSVal),
      (mwDispatch persistUid rootReducer registry b st (.hydrate n v)).2.2.2
        = .hydrationPromise registry) := by
  refine ⟨?_, ?_, ?_, fun b st n v => ?_⟩
  · cases initialized <;> simp [mwDispatch]
  · cases initialized <;>
      simp [mwDispatch, registeredDispatch, List.filter_append,
        filter_isRead_writes, filter_isRead_gating]
  · simp [enhancerConstruct, mwDispatch]
  · cases b <;> simp [mwDispatch]

/-- Claim C2: for every action other than reset and the hydration actions,
dispatched once the middleware is initialized: the middleware forwards it and
then compares the state captured before forwarding with the state after by
identity; when they are identical it initiates no storage write, when they
differ it initiates one `storeState` write per registered key; and either
way the dispatcher receives exactly `next`'s result — the write-backs appear
only in the initiated-effect trace, uncoupled from the returned value.  (On
the very first dispatch the lazy registration fires first; that path is the
subject of C10.) -/
theorem C2_writeback_gating {σ : Type} [DecidableEq σ] (persistUid : String)
    (rootReducer : σ → PAction → σ) (registry : List String) (s : σ)
    (a : PAction) (hh : ∀ n v, a ≠ .hydrate n v) (hr : a ≠ .reset) :
    mwDispatch persistUid rootReducer registry true s a
      = (true, rootReducer s a,
         if s = rootReducer s a then []
         else registry.map (fun k => MWEff.write k (rootReducer s a)),
         .forwarded) := by
  cases a with
  | reset => exact absurd rfl hr
  | hydrate n v => exact absurd rfl (hh n v)
  | middlewareRegistered p => simp [mwDispatch]
  | startHydrate => simp [mwDispatch]
  | other t p => simp [mwDispatch]

/-- Witness for C2 on the demo store: a state-changing increment initiates a
write for the registered key and returns the forwarded result; the same
action hitting an unchanged state initiates nothing. -/
theorem C2_writeback_gating_witness :
    mwDispatch demoUid demoRoot demoRegistry true demoRegisteredState
        (.other "counter/increment" .null)
      = (true, demoRoot demoRegisteredState (.other "counter/increment" .null),
         if demoRegisteredState
            = demoRoot demoRegisteredState (.other "counter/increment" .null)
         then []
         else demoRegistry.map (fun k =>
           MWEff.write k
             (demoRoot demoRegisteredState (.other "counter/increment" .null))),
         .forwarded) :=
  C2_writeback_gating demoUid demoRoot demoRegistry demoRegisteredState
    (.other "counter/increment" .null)
    (fun _n _v hh => PAction.noConfusion hh)
    (fun hh => PAction.noConfusion hh)

/-- Claim C3 (code bug, theorem evaluating the code at the failing input):
the write-back (src lines 230-233) calls `storeState(name, stateAfter,
entry)` with `stateAfter = getState()` — the whole root store state — so the
payload persisted under each registered key is the default serialization of
the entire root object, not of that key's own value subtree.  On the demo
store, an increment leaves the counter subtree at `1`, yet the single write
initiated for the key "counter" carries the full root state — whose
serialization differs from the subtree's. -/
theorem C3_writeback_payload_is_root :
    (mwDispatch demoUid demoRoot demoRegistry true demoRegisteredState
        (.other "counter/increment" .null)).2.2.1
      = [MWEff.write "counter"
          (demoRoot demoRegisteredState (.other "counter/increment" .null))] ∧
    (demoRoot demoRegisteredState
        (.other "counter/increment" .null)).getField "counter"
      = some (.num 1) ∧
    decide (demoRoot demoRegisteredState (.other "counter/increment" .null)
      = JSVal.num 1) = false ∧
    decide (storeStatePayload
        (demoRoot demoRegisteredState (.other "counter/increment" .null))
      = storeStatePayload (.num 1)) = false := by
  decide

/-- Claim C7 (code bug, theorem evaluating the code at the failing input): a
null read is not treated as "nothing to hydrate".  With the default
deserialize, `getStoredState` turns an empty slot (`getItem` yielding null)
into the parsed null value, the fan-out dispatches `hydrate(name, null)` for
it, and the default shallow merge of a null inbound over a non-record state
returns the null verbatim — so the key's state becomes null instead of
retaining its organic initial value (here the flag's `false`).  The
pre-seeded half of the claim does hold: a stored `"5"` hydrates the counter
to `5`, the stored value merged over its untouched reduced value. -/
theorem C7_null_read_clobbers_state :
    getStoredStateDefault none = .ok .null ∧
    (hydrateFanout [("flag", getStoredStateDefault none)]).1
      = [("flag", .null)] ∧
    persistSliceWrapped "flag" flagReduce { merge := none }
        (some (.bool false)) (.hydrate "flag" .null) = .null ∧
    decide ((JSVal.null : JSVal) = .bool false) = false ∧
    getStoredStateDefault (some "5") = .ok (.num 5) ∧
    persistSliceWrapped "counter" counterReduce { merge := none }
        (some (.num 0)) (.hydrate "counter" (.num 5)) = .num 5 := by
  decide

/-- Claim C8: storage failures never cross the dispatch boundary.  The
middleware's returned value is `next`'s result or the fan-out promise for
every action — never an error — and storage outcomes are not even inputs to
the synchronous dispatch step, so no read, deserialize, write or serialize
failure can change what dispatch returns or the in-memory state it leaves.
Each key's hydration attempt is settled independently: the hydrate events
emitted for a key are unchanged whatever another key's outcome is, a failed
key contributes exactly one `onError` report (its neighbours' attempts
surrounding it untouched), a succeeded key contributes exactly its own
hydrate dispatch, and a rejected write-back reports its error to `onError`
and nothing else. -/
theorem C8_storage_failure_isolation :
    (∀ (pre post : List (String × Except String JSVal)) (k L : String)
        (o o' : Except String JSVal), k ≠ L →
      hydratedFor (pre ++ (k, o) :: post) L
        = hydratedFor (pre ++ (k, o') :: post) L) ∧
    (∀ (pre post : List (String × Except String JSVal)) (k : String)
        (e : String),
      (hydrateFanout (pre ++ (k, Except.error e) :: post)).2
        = (hydrateFanout pre).2 ++ e :: (hydrateFanout post).2) ∧
    (∀ (pre post : List (String × Except String JSVal)) (k : String)
        (v : JSVal),
      (hydrateFanout (pre ++ (k, Except.ok v) :: post)).1
        = (hydrateFanout pre).1 ++ (k, v) :: (hydrateFanout post).1) ∧
    (∀ e, writeAttemptReport (.error e) = some e) ∧
    (∀ (σ : Type) (inst : DecidableEq σ) (u : String) (ρ : σ → PAction → σ)
        (reg : List String) (b : Bool) (st : σ) (a : PAction),
      (@mwDispatch σ inst u ρ reg b st a).2.2.2 = .forwarded ∨
      (@mwDispatch σ inst u ρ reg b st a).2.2.2 = .hydrationPromise reg) := by
  refine ⟨?_, ?_, ?_, fun e => rfl, ?_⟩
  · intro pre post k L o o' hkl
    have hb : (k == L) = false := beq_eq_false_iff_ne.mpr hkl
    simp only [hydratedFor, hydrateFanout, List.filterMap_append,
      List.filterMap_cons, List.filter_append]
    cases o <;> cases o' <;> simp [hydrateKeyAttempt, hb]
  · intro pre post k e
    simp [hydrateFanout, List.filterMap_append, List.filterMap_cons,
      hydrateKeyAttempt]
  · intro pre post k v
    simp [hydrateFanout, List.filterMap_append, List.filterMap_cons,
      hydrateKeyAttempt]
  · intro σ inst u ρ reg b st a
    cases a with
    | hydrate n v => exact Or.inr rfl
    | middlewareRegistered p => exact Or.inl rfl
    | startHydrate => exact Or.inl rfl
    | reset => exact Or.inl rfl
    | other t p => exact Or.inl rfl

/-- Witness for C8: key "l" hydrates to the same events whether its sibling
"k" read successfully or rejected. -/
theorem C8_storage_failure_isolation_witness :
    hydratedFor [("k", Except.ok JSVal.null), ("l", Except.ok JSVal.null)] "l"
      = hydratedFor
          [("k", Except.error "boom"), ("l", Except.ok JSVal.null)] "l" := by
  have h := C8_storage_failure_isolation.1 [] [("l", Except.ok JSVal.null)]
    "k" "l" (.ok .null) (.error "boom") (by decide)
  simpa using h

/-- Claim C10 (implicit): on the very first dispatch through a middleware
instance — whatever the action is — the lazily fired registration runs
first, and because it changes the state identity (it flips the meta-state's
`registered` flag from false to true in any store carrying the slice), its
own pass through the chain initiates a `storeState` write of the
just-registered root state for every registered key: those writes head the
effect trace, ahead of anything the triggering action itself contributes.
In particular the enhancer's construction-time `startHydrate` dispatch
initiates a write to every registered key's storage while initiating no
hydration read at all (C1), so the writes precede any read's settlement. -/
theorem C10_first_dispatch_registers_and_writes {σ : Type} [DecidableEq σ]
    (persistUid : String) (rootReducer : σ → PAction → σ)
    (registry : List String) (s : σ) (a : PAction)
    (hchange : rootReducer s (.middlewareRegistered persistUid) ≠ s) :
    ((mwDispatch persistUid rootReducer registry false s a).2.2.1.take
        registry.length
      = registry.map (fun k =>
          MWEff.write k (rootReducer s (.middlewareRegistered persistUid)))) ∧
    ((enhancerConstruct persistUid rootReducer registry s).2.1.take
        registry.length
      = registry.map (fun k =>
          MWEff.write k (rootReducer s (.middlewareRegistered persistUid)))) ∧
    ((enhancerConstruct persistUid rootReducer registry s).2.1.filter
        MWEff.isRead = []) := by
  have hreg : (registeredDispatch persistUid rootReducer registry s).2
      = registry.map (fun k =>
          MWEff.write k (rootReducer s (.middlewareRegistered persistUid))) := by
    simp only [registeredDispatch]
    rw [if_neg (fun h => hchange h.symm)]
  have htake : ∀ rest : List (MWEff σ),
      ((registry.map (fun k =>
          MWEff.write k (rootReducer s (.middlewareRegistered persistUid))))
        ++ rest).take registry.length
        = registry.map (fun k =>
            MWEff.write k (rootReducer s (.middlewareRegistered persistUid))) := by
    intro rest
    have hlen : (registry.map (fun k =>
        MWEff.write k
          (rootReducer s (.middlewareRegistered persistUid)))).length
        = registry.length := List.length_map _ _
    rw [← hlen, List.take_left]
  refine ⟨?_, ?_, ?_⟩
  · cases a <;> simp [mwDispatch, hreg, List.append_assoc, htake]
  · simp [enhancerConstruct, mwDispatch, hreg, htake]
  · simp [enhancerConstruct, mwDispatch, hreg, List.filter_append,
      filter_isRead_writes, filter_isRead_gating]

/-- Witness for C10 on the demo store: construction initiates the write for
the registered key "counter" (carrying the registered root state), no read
is ever initiated, and the registration dispatch indeed flips the meta-state
`registered` flag from false to true. -/
theorem C10_first_dispatch_witness :
    ((enhancerConstruct demoUid demoRoot demoRegistry demoInit).2.1.take
        demoRegistry.length
      = demoRegistry.map (fun k =>
          MWEff.write k (demoRoot demoInit (.middlewareRegistered demoUid)))) ∧
    ((enhancerConstruct demoUid demoRoot demoRegistry demoInit).2.1.filter
        MWEff.isRead = []) ∧
    (persistStateOfVal (demoRegisteredState.getField "persistor")).registered
        = .yes ∧
    (persistStateOfVal (demoInit.getField "persistor")).registered = .no := by
  have h := C10_first_dispatch_registers_and_writes demoUid demoRoot
    demoRegistry demoInit .startHydrate (by decide)
  exact ⟨h.2.1, h.2.2, by decide, by decide⟩
